import Mathlib

/-!
Verification of `src/gpt_review/_git.py` (gpt-review).

The module is a thin pipeline: `_find_git_dir` walks parent directories
looking for a `.git` metadata directory; `_diff` asks the located repository
for the staged diff; `_commit_message` sends the diff with a fixed goal
string to a completion facility; `_commit` commits with the generated
message and optionally pushes, returning `{"response": text}`.

Embedding conventions:
* Filesystem directories are absolute paths encoded as component lists
  stored leaf-first: `/a/b` is `["b", "a"]` and the root `/` is `[]`.
  A starting path is absolute or relative to the current working
  directory; the default argument `"."` is `FsPath.rel []`.
  `os.path.abspath(os.path.join(p, os.pardir))` is then: resolve the path
  against the working directory and drop the leaf component (on the root
  it stays the root, matching `abspath("/..") == "/"`).
* The external collaborators (the filesystem `.git` test, GitPython's
  `diff`/`commit`/`push`, and `_request_goal`) are captured in an `Env` of
  result-returning functions; a raised exception is `Except.error`.
* Each operation returns its `Except` result paired with the list of
  collaborator invocations it performed, in order, so that propagation
  and "no further operation runs" claims are statable.
-/

namespace GptReview

/-- An argument path: absolute (components leaf-first, `[]` is `/`) or
relative to the current working directory (`rel []` is `"."`). -/
inductive FsPath where
  | abs (components : List String)
  | rel (components : List String)
deriving DecidableEq, Repr

/-- Resolve a path against the working directory `cwd` (itself absolute,
leaf-first): `os.path` resolution of a relative path appends it to `cwd`. -/
def resolve (cwd : List String) : FsPath → List String
  | .abs cs => cs
  | .rel cs => cs ++ cwd

/-- The string comparison `path != "/"` of the loop: only the absolute
root path prints as `"/"`. -/
def isRoot : FsPath → Bool
  | .abs [] => true
  | _ => false

/-- Exceptions raised by the pipeline: `FileNotFoundError` from the
locator, or any error of an underlying tool / the completion facility. -/
inductive GitError where
  | fileNotFound (msg : String)
  | toolError (msg : String)
deriving DecidableEq, Repr

/-- The exact error raised by `_find_git_dir`:
`FileNotFoundError(".git directory not found")`. -/
def gitNotFoundError : GitError := .fileNotFound (".git directory not found")

/-- The iterations of the `while path != "/"` loop once the path is
absolute (after the first `abspath(join(path, pardir))` every candidate is
absolute): stop with `FileNotFoundError` at the root, return the current
directory if it contains `.git`, else move to the parent (`List.tail` in
the leaf-first encoding). `hasGit d` is `os.path.exists(os.path.join(d, ".git"))`. -/
def _find_git_dir_abs (hasGit : List String → Bool) : List String → Except GitError (List String)
  | [] => .error gitNotFoundError
  | c :: rest => if hasGit (c :: rest) then .ok (c :: rest) else _find_git_dir_abs hasGit rest

/-- `_find_git_dir`, lines 15-29: the first loop iteration works on the
argument path exactly as given (returning it unchanged on a hit, even when
it is relative); afterwards the candidates are the absolute ancestors. -/
def _find_git_dir_from (hasGit : List String → Bool) (cwd : List String) (p : FsPath) :
    Except GitError FsPath :=
  if isRoot p then .error gitNotFoundError
  else if hasGit (resolve cwd p) then .ok p
  else (_find_git_dir_abs hasGit (resolve cwd p).tail).map FsPath.abs

/-- The chain of directories the absolute phase of the loop examines,
nearest first, excluding the root: a directory and its proper ancestors. -/
def ancestors : List String → List (List String)
  | [] => []
  | c :: rest => (c :: rest) :: ancestors rest

/-- The loop of `_find_git_dir` with an explicit step budget: `none` means
the budget ran out before the loop finished.  Used to express termination. -/
def _find_git_dir_fuel (hasGit : List String → Bool) (cwd : List String) :
    Nat → FsPath → Option (Except GitError FsPath)
  | 0, _ => none
  | fuel + 1, p =>
    if isRoot p then some (.error gitNotFoundError)
    else if hasGit (resolve cwd p) then some (.ok p)
    else _find_git_dir_fuel hasGit cwd fuel (FsPath.abs (resolve cwd p).tail)

/-- A request to the goal-completion facility `_request_goal(content, goal,
fast, large)`. -/
structure CompletionRequest where
  content : String
  goal : String
  fast : Bool
  large : Bool
deriving DecidableEq, Repr

/-- One collaborator invocation performed by the pipeline. -/
inductive Event where
  | findGitDir
  | repoInit (dir : FsPath)
  | diff
  | requestGoal (r : CompletionRequest)
  | commit (message : String)
  | push
deriving DecidableEq, Repr

/-- The environment: the filesystem seen by the locator and the behavior
of every external collaborator.  Each collaborator either returns a value
or raises (`Except.error`). -/
structure Env where
  hasGit : List String → Bool
  cwd : List String
  diff_result : Except GitError String
  request_goal : CompletionRequest → Except GitError String
  commit_result : String → Except GitError String
  push_result : Except GitError String

/-- `_find_git_dir` as called inside the module, with the default argument
`path="."`. -/
def _find_git_dir (env : Env) (p : FsPath := FsPath.rel []) : Except GitError FsPath :=
  _find_git_dir_from env.hasGit env.cwd p

/-- `_diff`, line 40: `Repo.init(_find_git_dir()).git.diff(None, cached=True)`.
A locator failure propagates before the repository is opened. -/
def _diff (env : Env) : Except GitError String × List Event :=
  match _find_git_dir env with
  | .error e => (.error e, [.findGitDir])
  | .ok d => (env.diff_result, [.findGitDir, .repoInit d, .diff])

/-- The goal string of `_commit_message`, lines 55-57 (a triple-quoted
literal with a leading and a trailing newline). -/
def commitGoal : String :=
  "\nCreate a short, single-line, git commit message for these changes\n"

/-- `_commit_message`, lines 43-61:
`_request_goal(diff, goal, fast=not gpt4, large=large)`. -/
def _commit_message (env : Env) (gpt4 : Bool := false) (large : Bool := false) :
    Except GitError String × List Event :=
  match _diff env with
  | (.error e, tr) => (.error e, tr)
  | (.ok d, tr) =>
    let r : CompletionRequest := { content := d, goal := commitGoal, fast := !gpt4, large := large }
    (env.request_goal r, tr ++ [.requestGoal r])

/-- `_push`, lines 64-68: `Repo.init(_find_git_dir()).git.push()`. -/
def _push (env : Env) : Except GitError String × List Event :=
  match _find_git_dir env with
  | .error e => (.error e, [.findGitDir])
  | .ok d => (env.push_result, [.findGitDir, .repoInit d, .push])

/-- `_commit`, lines 71-88: generate the message, commit, optionally push
appending the push output after a newline, and wrap the text as
`{"response": commit}` (an association list models the `Dict[str, str]`). -/
def _commit (env : Env) (gpt4 : Bool := false) (large : Bool := false)
    (push : Bool := false) : Except GitError (List (String × String)) × List Event :=
  match _commit_message env gpt4 large with
  | (.error e, tr) => (.error e, tr)
  | (.ok message, tr) =>
    match _find_git_dir env with
    | .error e => (.error e, tr ++ [.findGitDir])
    | .ok d =>
      match env.commit_result message with
      | .error e => (.error e, tr ++ [.findGitDir, .repoInit d, .commit message])
      | .ok c =>
        if push then
          match _push env with
          | (.error e, tr2) => (.error e, tr ++ [.findGitDir, .repoInit d, .commit message] ++ tr2)
          | (.ok p, tr2) =>
            (.ok [("response", c ++ "\n" ++ p)],
             tr ++ [.findGitDir, .repoInit d, .commit message] ++ tr2)
        else (.ok [("response", c)], tr ++ [.findGitDir, .repoInit d, .commit message])

/-- A concrete healthy environment: the working directory `/repo` contains
`.git`, every collaborator succeeds. -/
def env0 : Env where
  hasGit := fun d => d == ["repo"]
  cwd := ["repo"]
  diff_result := .ok ("diff text")
  request_goal := fun r => .ok ("msg for " ++ r.content)
  commit_result := fun m => .ok ("committed " ++ m)
  push_result := .ok ("pushed")

/-- `env0` with an empty staged diff. -/
def envEmptyDiff : Env := { env0 with diff_result := .ok ("") }

/-- `env0` whose push operation raises. -/
def envPushFail : Env := { env0 with push_result := .error (.toolError ("remote rejected")) }

/-- `env0` on a filesystem with no `.git` anywhere. -/
def envNoGit : Env := { env0 with hasGit := fun _ => false }

/-! ### The Repository Locator -/

/-- The absolute phase of the loop returns the first (nearest) directory of
the examined chain that contains `.git`, and raises when none does. -/
theorem _find_git_dir_abs_eq_find (hasGit : List String → Bool) (cs : List String) :
    _find_git_dir_abs hasGit cs =
      match (ancestors cs).find? hasGit with
      | some d => .ok d
      | none => .error gitNotFoundError := by
  induction cs with
  | nil => rfl
  | cons c rest ih =>
    by_cases h : hasGit (c :: rest)
    · simp [_find_git_dir_abs, ancestors, List.find?_cons_of_pos, h]
    · simp [_find_git_dir_abs, ancestors, List.find?_cons_of_neg, h, ih]

/-- C1 (amended): for a starting path other than the filesystem root, the
locator returns the starting path itself when it contains `.git`, and
otherwise the nearest strict ancestor, excluding the root, containing
`.git` (as an absolute path); when the candidate chain has no `.git` — and
always when the starting path is the root — it raises
`FileNotFoundError(".git directory not found")`. -/
theorem find_git_dir_spec (hasGit : List String → Bool) (cwd : List String) (p : FsPath) :
    (isRoot p = true → _find_git_dir_from hasGit cwd p = .error gitNotFoundError) ∧
    (isRoot p = false → hasGit (resolve cwd p) = true →
      _find_git_dir_from hasGit cwd p = .ok p) ∧
    (isRoot p = false → hasGit (resolve cwd p) = false →
      _find_git_dir_from hasGit cwd p =
        match (ancestors (resolve cwd p).tail).find? hasGit with
        | some d => .ok (FsPath.abs d)
        | none => .error gitNotFoundError) := by
  refine ⟨fun hr => ?_, fun hr hg => ?_, fun hr hg => ?_⟩
  · simp [_find_git_dir_from, hr]
  · simp [_find_git_dir_from, hr, hg]
  · simp only [_find_git_dir_from, hr, hg, Bool.false_eq_true, if_false]
    rw [_find_git_dir_abs_eq_find]
    cases (ancestors (resolve cwd p).tail).find? hasGit <;> simp [Except.map]

/-- Witness for `find_git_dir_spec`: from `/repo/b` with `.git` only in
`/repo`, the locator returns `/repo`. -/
theorem find_git_dir_spec_witness :
    _find_git_dir_from (fun d => d == ["repo"]) ["repo"] (FsPath.rel ["b"]) =
      .ok (FsPath.abs ["repo"]) := by
  have h := (find_git_dir_spec (fun d => d == ["repo"]) ["repo"] (FsPath.rel ["b"])).2.2
    rfl (by decide)
  simpa using h

/-- C1 counterexample: the filesystem root `/` itself contains `.git`
(`hasGit` holds exactly on `[]`), yet the locator raises instead of
returning the containing directory. -/
theorem find_git_dir_claim_counterexample :
    (fun d : List String => d.isEmpty) (resolve [] (FsPath.abs [])) = true ∧
    _find_git_dir_from (fun d => d.isEmpty) [] (FsPath.abs []) = .error gitNotFoundError :=
  ⟨rfl, rfl⟩

/-- C9: started exactly at the filesystem root, the locator raises
`FileNotFoundError` without examining the root, whatever the filesystem
contains. -/
theorem find_git_dir_root_raises (hasGit : List String → Bool) (cwd : List String) :
    _find_git_dir_from hasGit cwd (FsPath.abs []) = .error gitNotFoundError := rfl

/-- C10 (amended): a non-root starting path that itself contains `.git` is
returned unchanged — in particular a relative path stays relative. -/
theorem find_git_dir_returns_start (hasGit : List String → Bool) (cwd : List String)
    (p : FsPath) (hr : isRoot p = false) (hg : hasGit (resolve cwd p) = true) :
    _find_git_dir_from hasGit cwd p = .ok p := by
  simp [_find_git_dir_from, hr, hg]

/-- Witness for `find_git_dir_returns_start`: the default starting path
`"."` in a working directory `/repo` containing `.git` is returned
unchanged, still relative. -/
theorem find_git_dir_returns_start_witness :
    isRoot (FsPath.rel []) = false ∧
    (fun d : List String => d == ["repo"]) (resolve ["repo"] (FsPath.rel [])) = true ∧
    _find_git_dir_from (fun d => d == ["repo"]) ["repo"] (FsPath.rel []) =
      .ok (FsPath.rel []) :=
  ⟨rfl, by decide,
    find_git_dir_returns_start (fun d => d == ["repo"]) ["repo"] (FsPath.rel [])
      rfl (by decide)⟩

/-- C10 counterexample: the root `/` contains `.git` (here `.git` exists
everywhere), yet the locator does not return the starting path `/`. -/
theorem find_git_dir_start_claim_counterexample :
    (fun _ : List String => true) (resolve [] (FsPath.abs [])) = true ∧
    _find_git_dir_from (fun _ => true) [] (FsPath.abs []) ≠ .ok (FsPath.abs []) :=
  ⟨rfl, fun h => nomatch h⟩

/-- The fueled loop agrees with the total locator as soon as the budget
exceeds the length of the resolved absolute starting path. -/
theorem _find_git_dir_fuel_abs (hasGit : List String → Bool) (cwd : List String) :
    ∀ (cs : List String) (fuel : Nat), cs.length < fuel →
      _find_git_dir_fuel hasGit cwd fuel (FsPath.abs cs) =
        some ((_find_git_dir_abs hasGit cs).map FsPath.abs) := by
  intro cs
  induction cs with
  | nil =>
    intro fuel hf
    cases fuel with
    | zero => exact absurd hf (by omega)
    | succ f => rfl
  | cons c rest ih =>
    intro fuel hf
    cases fuel with
    | zero => exact absurd hf (by omega)
    | succ f =>
      by_cases h : hasGit (c :: rest)
      · simp [_find_git_dir_fuel, _find_git_dir_abs, isRoot, resolve, h, Except.map]
      · simp only [_find_git_dir_fuel, _find_git_dir_abs, isRoot, resolve, h,
          Bool.false_eq_true, if_false, List.tail_cons]
        exact ih f (Nat.lt_of_succ_lt_succ hf)

/-- C7: the parent-walking loop terminates — with a step budget of the
resolved starting path's depth plus two it finishes (returns `some`), and
its outcome is that of the locator. -/
theorem find_git_dir_terminates (hasGit : List String → Bool) (cwd : List String) (p : FsPath) :
    _find_git_dir_fuel hasGit cwd ((resolve cwd p).length + 2) p =
      some (_find_git_dir_from hasGit cwd p) := by
  by_cases hr : isRoot p = true
  · simp [_find_git_dir_fuel, _find_git_dir_from, hr]
  · by_cases hg : hasGit (resolve cwd p) = true
    · simp [_find_git_dir_fuel, _find_git_dir_from, hr, hg]
    · simp only [_find_git_dir_fuel, _find_git_dir_from, hr, hg, if_false]
      exact _find_git_dir_fuel_abs hasGit cwd (resolve cwd p).tail
        ((resolve cwd p).length + 1)
        (by have := List.length_tail (resolve cwd p); omega)

/-! ### The Message Generator and the Commit Executor -/

/-- C2: `_commit_message` calls the completion facility with `fast = not
gpt4` and `large = large`: `gpt4 = false` gives `fast = true`, `gpt4 =
true` gives `fast = false`, and `large` is forwarded unchanged. -/
theorem commit_message_flags (env : Env) (gpt4 large : Bool) (d : String) (tr : List Event)
    (h : _diff env = (.ok d, tr)) :
    _commit_message env gpt4 large =
      (env.request_goal { content := d, goal := commitGoal, fast := !gpt4, large := large },
       tr ++ [Event.requestGoal
         { content := d, goal := commitGoal, fast := !gpt4, large := large }]) ∧
    (gpt4 = false → (!gpt4) = true) ∧ (gpt4 = true → (!gpt4) = false) := by
  refine ⟨?_, fun hg => by simp [hg], fun hg => by simp [hg]⟩
  simp [_commit_message, h]

/-- Witness for `commit_message_flags` at the default flags. -/
theorem commit_message_flags_witness :
    _commit_message env0 false false =
      (env0.request_goal
        { content := "diff text", goal := commitGoal, fast := !false, large := false },
       [Event.findGitDir, Event.repoInit (FsPath.rel []), Event.diff] ++
         [Event.requestGoal
           { content := "diff text", goal := commitGoal, fast := !false, large := false }]) :=
  (commit_message_flags env0 false false ("diff text")
    [Event.findGitDir, Event.repoInit (FsPath.rel []), Event.diff] rfl).1

/-- C5: an empty staged diff is passed through unchanged — the completion
request is still issued, with empty content, and the facility's result is
returned as is. -/
theorem commit_message_empty_diff (env : Env) (gpt4 large : Bool) (tr : List Event)
    (h : _diff env = (.ok "", tr)) :
    _commit_message env gpt4 large =
      (env.request_goal { content := "", goal := commitGoal, fast := !gpt4, large := large },
       tr ++ [Event.requestGoal
         { content := "", goal := commitGoal, fast := !gpt4, large := large }]) := by
  simp [_commit_message, h]

/-- Witness for `commit_message_empty_diff`. -/
theorem commit_message_empty_diff_witness :
    _commit_message envEmptyDiff false false =
      (envEmptyDiff.request_goal
        { content := "", goal := commitGoal, fast := !false, large := false },
       [Event.findGitDir, Event.repoInit (FsPath.rel []), Event.diff] ++
         [Event.requestGoal
           { content := "", goal := commitGoal, fast := !false, large := false }]) :=
  commit_message_empty_diff envEmptyDiff false false
    [Event.findGitDir, Event.repoInit (FsPath.rel []), Event.diff] rfl

/-- The diff step never issues a completion request itself. -/
theorem diff_trace_no_request (env : Env) (r : CompletionRequest) :
    Event.requestGoal r ∉ (_diff env).2 := by
  rcases hfd : _find_git_dir env with e | d <;> simp [_diff, hfd]

/-- C8: every completion request `_commit_message` issues carries the one
fixed goal string, for every diff and every flag combination. -/
theorem commit_message_goal_fixed (env : Env) (gpt4 large : Bool) (r : CompletionRequest)
    (h : Event.requestGoal r ∈ (_commit_message env gpt4 large).2) :
    r.goal = commitGoal := by
  rcases hdiff : _diff env with ⟨res, tr⟩
  have hnd : Event.requestGoal r ∉ tr := by
    simpa [hdiff] using diff_trace_no_request env r
  cases res with
  | error e =>
    simp [_commit_message, hdiff] at h
    exact absurd h hnd
  | ok d =>
    simp [_commit_message, hdiff, List.mem_append] at h
    rcases h with h | h
    · exact absurd h hnd
    · rw [h]

/-- Witness for `commit_message_goal_fixed`: the request issued in `env0`
carries the fixed goal. -/
theorem commit_message_goal_fixed_witness :
    ({ content := "diff text", goal := commitGoal, fast := true, large := false } :
      CompletionRequest).goal = commitGoal :=
  commit_message_goal_fixed env0 false false
    { content := "diff text", goal := commitGoal, fast := true, large := false }
    (by decide)

/-- C3: a run of `_commit` that completes without error returns the
single-key mapping `{"response": text}`: the commit operation's output
alone when `push = false`, and the commit output, a newline, and the push
output when `push = true`. -/
theorem commit_response_shape (env : Env) (gpt4 large pf : Bool)
    (v : List (String × String)) (tr : List Event)
    (h : _commit env gpt4 large pf = (.ok v, tr)) :
    ∃ m c, env.commit_result m = .ok c ∧
      ((pf = false ∧ v = [("response", c)]) ∨
       (pf = true ∧ ∃ p, env.push_result = .ok p ∧ v = [("response", c ++ "\n" ++ p)])) := by
  rcases hcm : _commit_message env gpt4 large with ⟨mres, tr1⟩
  cases mres with
  | error e => simp [_commit, hcm] at h
  | ok m =>
    rcases hfd : _find_git_dir env with e | d
    · simp [_commit, hcm, hfd] at h
    · rcases hcr : env.commit_result m with e | c
      · simp [_commit, hcm, hfd, hcr] at h
      · cases pf with
        | false =>
          simp [_commit, hcm, hfd, hcr] at h
          exact ⟨m, c, hcr, Or.inl ⟨rfl, h.1.symm⟩⟩
        | true =>
          rcases hpres : env.push_result with e | p
          · simp [_commit, _push, hcm, hfd, hcr, hpres] at h
          · simp [_commit, _push, hcm, hfd, hcr, hpres] at h
            exact ⟨m, c, hcr, Or.inr ⟨rfl, p, rfl, h.1.symm⟩⟩

/-- Witness for `commit_response_shape`: a full successful run of
`_commit` with `push = true` in `env0`. -/
theorem commit_response_shape_witness :
    ∃ m c, env0.commit_result m = .ok c ∧
      ((true = false ∧
          ([("response", "committed msg for diff text\npushed")] : List (String × String)) =
            [("response", c)]) ∨
       (true = true ∧ ∃ p, env0.push_result = .ok p ∧
          ([("response", "committed msg for diff text\npushed")] : List (String × String)) =
            [("response", c ++ "\n" ++ p)])) :=
  commit_response_shape env0 false false true
    [("response", "committed msg for diff text\npushed")]
    [Event.findGitDir, Event.repoInit (FsPath.rel []), Event.diff,
     Event.requestGoal { content := "diff text", goal := commitGoal, fast := true, large := false },
     Event.findGitDir, Event.repoInit (FsPath.rel []), Event.commit ("msg for diff text"),
     Event.findGitDir, Event.repoInit (FsPath.rel []), Event.push]
    rfl

/-- C4: when `push = true`, the commit succeeds and the push raises, the
push error propagates unchanged, the already-performed commit invocation
stays in the trace (no rollback), and no repository operation follows the
failed push — the trace ends with the push invocation. -/
theorem commit_push_failure (env : Env) (gpt4 large : Bool) (m : String) (tr1 : List Event)
    (d : FsPath) (c : String) (e : GitError)
    (hm : _commit_message env gpt4 large = (.ok m, tr1))
    (hd : _find_git_dir env = .ok d)
    (hc : env.commit_result m = .ok c)
    (hp : env.push_result = .error e) :
    _commit env gpt4 large true =
      (.error e,
       tr1 ++ [Event.findGitDir, Event.repoInit d, Event.commit m] ++
         [Event.findGitDir, Event.repoInit d, Event.push]) ∧
    Event.commit m ∈ (_commit env gpt4 large true).2 := by
  have heq : _commit env gpt4 large true =
      (.error e,
       tr1 ++ [Event.findGitDir, Event.repoInit d, Event.commit m] ++
         [Event.findGitDir, Event.repoInit d, Event.push]) := by
    simp [_commit, _push, hm, hd, hc, hp]
  refine ⟨heq, ?_⟩
  rw [heq]
  simp

/-- Witness for `commit_push_failure` in `envPushFail`. -/
theorem commit_push_failure_witness :
    _commit envPushFail false false true =
      (.error (.toolError ("remote rejected")),
       [Event.findGitDir, Event.repoInit (FsPath.rel []), Event.diff,
        Event.requestGoal
          { content := "diff text", goal := commitGoal, fast := true, large := false }] ++
         [Event.findGitDir, Event.repoInit (FsPath.rel []),
          Event.commit ("msg for diff text")] ++
         [Event.findGitDir, Event.repoInit (FsPath.rel []), Event.push]) :=
  (commit_push_failure envPushFail false false ("msg for diff text")
    [Event.findGitDir, Event.repoInit (FsPath.rel []), Event.diff,
     Event.requestGoal { content := "diff text", goal := commitGoal, fast := true, large := false }]
    (FsPath.rel []) ("committed msg for diff text") (.toolError ("remote rejected"))
    rfl rfl rfl rfl).1

/-- C6: when the locator fails, `_commit` surfaces exactly that error and
the trace shows the locator invocation alone — no diff extraction, no
completion request, no commit and no push. -/
theorem commit_locator_failure (env : Env) (gpt4 large pf : Bool) (e : GitError)
    (h : _find_git_dir env = .error e) :
    _commit env gpt4 large pf = (.error e, [Event.findGitDir]) ∧
    Event.diff ∉ (_commit env gpt4 large pf).2 ∧
    (∀ r, Event.requestGoal r ∉ (_commit env gpt4 large pf).2) ∧
    (∀ m, Event.commit m ∉ (_commit env gpt4 large pf).2) ∧
    Event.push ∉ (_commit env gpt4 large pf).2 := by
  have heq : _commit env gpt4 large pf = (.error e, [Event.findGitDir]) := by
    simp [_commit, _commit_message, _diff, h]
  refine ⟨heq, ?_, fun r => ?_, fun m => ?_, ?_⟩ <;> rw [heq] <;> simp

/-- Witness for `commit_locator_failure` in `envNoGit`. -/
theorem commit_locator_failure_witness :
    _commit envNoGit false false false = (.error gitNotFoundError, [Event.findGitDir]) :=
  (commit_locator_failure envNoGit false false false gitNotFoundError rfl).1

end GptReview
